import Mathlib

/-!
Shallow embedding of the `heap_prio_queue` repository: the intrusive priority
queue (`priority_queue.c`) and the tick-driven timer dispatcher (`timer.c`).

Heap nodes live at addresses; we model an address as a `Nat` identifier and the
node memory as a total map `Mem : Nat → HeapNode`.  A C pointer is an
`Option Nat` (`none` models `NULL`).  The comparator stored in the queue is a C
function pointer reading the containing structures through `CONTAINER_OF`; we
model it as a pure function that receives the current priority environment
(node id to priority, for the timer module the timer's `expiry`) at call time,
which reproduces the pointer-chasing reads of the C comparator.

Loops that are not structurally terminating in the C source (`pq_reorder`'s
sift loop and the drain loop of `timer_increment_tick`) are modelled with
explicit fuel; `LoopRes.fuelOut` marks fuel exhaustion and `LoopRes.ub` marks a
NULL-pointer dereference (undefined behaviour) in the C code.
-/

set_option autoImplicit false

/-- Model of `struct heap_node` (priority_queue.h): the three intrusive
pointers `next`, `prev`, `parent`. -/
structure HeapNode where
  next : Option Nat
  prev : Option Nat
  parent : Option Nat
deriving DecidableEq, Repr

/-- Node memory: contents of every `struct heap_node` by node id. -/
abbrev Mem := Nat → HeapNode

/-- Pointwise store update, modelling a write through a node pointer. -/
def upd {α : Type} (m : Nat → α) (i : Nat) (v : α) : Nat → α :=
  fun j => if j = i then v else m j

theorem upd_self {α : Type} (m : Nat → α) (i : Nat) (v : α) : upd m i v i = v := by
  simp [upd]

theorem upd_other {α : Type} (m : Nat → α) (i : Nat) (v : α) {j : Nat} (h : j ≠ i) :
    upd m i v j = m j := by
  simp [upd, h]

/-- Model of the comparator function pointer
`int (*compare)(struct heap_node *, struct heap_node *)`: it receives the
current priority environment (what `CONTAINER_OF` would read from memory at
call time) and the two node ids. -/
def Cmp := (Nat → Nat) → Nat → Nat → Int

/-- Model of `struct priority_queue` (priority_queue.h): `head`, `tail`,
`root` pointers and the stored comparator (`none` models a NULL function
pointer). -/
structure priority_queue where
  head : Option Nat
  tail : Option Nat
  root : Option Nat
  compare : Option Cmp

/-- `EINVAL` from `<errno.h>`; the C functions return `-EINVAL`. -/
def EINVAL : Int := 22

/-- Model of `swap_nodes` (priority_queue.c lines 36-53): the whole contents of
the two nodes are exchanged (`temp = *a; *a = *b; *b = temp;`), then the
`parent` fields are adjusted; the C code performs the parent checks on the
post-assignment values, which is what the conditions below encode.  The C
caller (`pq_reorder`) only invokes this with `a ≠ b`. -/
def swap_nodes (m : Mem) (a b : Nat) : Mem :=
  let ma := m a
  let mb := m b
  -- after `*a = *b; *b = temp;` we have a = mb, b = ma; the fixup reads those.
  let pa : Option Nat :=
    if mb.parent = some b then ma.parent
    else if ma.parent = some a then some b
    else ma.parent
  let pb : Option Nat :=
    if mb.parent = some b then some a
    else if ma.parent = some a then mb.parent
    else mb.parent
  fun n =>
    if n = a then { next := mb.next, prev := mb.prev, parent := pa }
    else if n = b then { next := ma.next, prev := ma.prev, parent := pb }
    else m n

/-- Model of `pq_init` (priority_queue.c lines 55-67).  A `none` argument
models a NULL pointer; on `-EINVAL` the queue argument is returned untouched.
On success every field of the structure is overwritten. -/
def pq_init (pqArg : Option priority_queue) (cmpArg : Option Cmp) :
    Int × Option priority_queue :=
  match pqArg, cmpArg with
  | some _, some cmp => (0, some { head := none, tail := none, root := none, compare := some cmp })
  | _, _ => (-EINVAL, pqArg)

/-- Model of `pq_insert` (priority_queue.c lines 69-86).  Returns `none` when
the C code would dereference a NULL pointer (`pq->tail->next` with a NULL
tail), otherwise the status code together with the updated queue and memory.
The write order of the C source is preserved. -/
def pq_insert (pqArg : Option priority_queue) (nodeArg : Option Nat) (m : Mem) :
    Option (Int × Option priority_queue × Mem) :=
  match pqArg, nodeArg with
  | some pq, some node =>
    match pq.head with
    | none =>
      -- pq->head = pq->tail = pq->root = node; node->parent = node->next = node->prev = NULL
      some (0, some { pq with head := some node, tail := some node, root := some node },
        upd m node { next := none, prev := none, parent := none })
    | some _ =>
      match pq.tail with
      | none => none
      | some t =>
        -- pq->tail->next = node; node->prev = pq->tail; pq->tail = node; node->next = NULL
        let m1 := upd m t { m t with next := some node }
        let m2 := upd m1 node { m1 node with prev := some t, next := none }
        some (0, some { pq with tail := some node }, m2)
  | _, _ => some (-EINVAL, pqArg, m)

/-- Model of `pq_pop` (priority_queue.c lines 88-115) for a non-NULL queue
argument (the `!pq` guard returns NULL and is not modelled because no claim
exercises it).  Returns `none` when the C code would dereference
`pq->tail->prev` with a NULL tail; otherwise the returned node pointer, the
updated queue and the updated memory. -/
def pq_pop (pq : priority_queue) (m : Mem) :
    Option (Option Nat × priority_queue × Mem) :=
  match pq.head with
  | none => some (none, pq, m)
  | some _ =>
    if pq.head = pq.tail then
      some (pq.root, { pq with head := none, tail := none, root := none }, m)
    else
      match pq.tail with
      | none => none
      | some t =>
        -- if (pq->tail->prev) pq->tail->prev->next = NULL;
        let m1 :=
          match (m t).prev with
          | some p => upd m p { m p with next := none }
          | none => m
        -- pq->tail = pq->tail->prev; pq->root->next = pq->root->prev = NULL;
        let newTail := (m1 t).prev
        let m2 := upd m1 t { m1 t with next := none, prev := none }
        some (pq.root, { pq with root := some t, tail := newTail }, m2)

/-- Model of `pq_peek` (priority_queue.c lines 117-124): returns `pq->root`
(NULL both for a NULL root and, in C, for a NULL queue argument). -/
def pq_peek (pq : priority_queue) : Option Nat :=
  pq.root

/-- Result of a fuelled loop: normal result, fuel exhaustion (the C loop has
not finished after that many iterations), or a NULL dereference in the C
code. -/
inductive LoopRes (α : Type) where
  | out (v : α)
  | fuelOut
  | ub

/-- The `largest` computation of one `pq_reorder` iteration
(priority_queue.c lines 133-143): start from `current`, replace by `next` if
it compares greater, then by `prev` if that compares greater than the current
candidate. -/
def reorder_pick (cmp : Nat → Nat → Int) (m : Mem) (cur : Nat) : Nat :=
  let l1 :=
    match (m cur).next with
    | some nx => if 0 < cmp nx cur then nx else cur
    | none => cur
  match (m cur).prev with
  | some pv => if 0 < cmp pv l1 then pv else l1
  | none => l1

/-- The `while (1)` loop of `pq_reorder` (priority_queue.c lines 132-149).
`cur` is the local variable `current`, which the C code never reassigns; each
iteration re-reads the node memory, exits when `largest == current`, and
otherwise swaps the two nodes' contents and repeats. -/
def pq_reorder_loop (cmp : Nat → Nat → Int) : Nat → Mem → Nat → LoopRes Mem
  | 0, _, _ => .fuelOut
  | fuel + 1, m, cur =>
    let l := reorder_pick cmp m cur
    if l = cur then .out m
    else pq_reorder_loop cmp fuel (swap_nodes m cur l) cur

/-- Model of `pq_reorder` (priority_queue.c lines 126-150) for a non-NULL
queue.  A NULL `head` is a no-op; entering the loop with a NULL `root`
(`current`) or a NULL comparator pointer is a NULL dereference / NULL call in
the C code.  `env` is the priority environment the comparator reads. -/
def pq_reorder (fuel : Nat) (pq : priority_queue) (env : Nat → Nat) (m : Mem) :
    LoopRes Mem :=
  match pq.head with
  | none => .out m
  | some _ =>
    match pq.root with
    | none => .ub
    | some r =>
      match pq.compare with
      | none => .ub
      | some cmp => pq_reorder_loop (cmp env) fuel m r

/-- `2^64`: the wrap modulus of the `uint64_t` values in `timer.c`. -/
def U64 : Nat := 2 ^ 64

/-- Model of the time-relevant fields of `struct timer` (timer_module.h):
`expiry` and `period`, both `uint64_t` (values kept below `U64`).  The
`callback`/`data` pair is modelled by the event log of `TimerState`; node ids
and timer ids coincide (one embedded `heap_node` per timer, recovered by
`CONTAINER_OF` in the C code). -/
structure timer where
  expiry : Nat
  period : Nat
deriving DecidableEq, Repr

/-- Model of `timer_compare` (timer.c lines 31-36):
`(a->expiry > b->expiry) - (a->expiry < b->expiry)`, reading the expiries via
`CONTAINER_OF` from current memory, here the environment. -/
def timer_compare : Cmp := fun env a b =>
  (if env a > env b then (1 : Int) else 0) - (if env a < env b then 1 else 0)

/-- State of the timer module (timer.c): the global `timer_queue`, the heap
node memory, the timer records by id, the `global_ticks` counter, and the log
of callback invocations `(timer id, global_ticks at the call)` in order. -/
structure TimerState where
  timer_queue : priority_queue
  mem : Mem
  timers : Nat → timer
  global_ticks : Nat
  log : List (Nat × Nat)

/-- Priority environment the stored `timer_compare` reads: each node id's
current `expiry`. -/
def expiryEnv (timers : Nat → timer) : Nat → Nat :=
  fun i => (timers i).expiry

/-- The queue produced by `timer_module_init` (timer.c lines 38-42): all
pointers NULL and `timer_compare` installed; see `timer_module_init_queue_eq`. -/
def initQueue : priority_queue :=
  { head := none, tail := none, root := none, compare := some timer_compare }

theorem timer_module_init_queue_eq (q : priority_queue) :
    pq_init (some q) (some timer_compare) = (0, some initQueue) := rfl

/-- The record stored by `timer_start` (timer.c lines 54-55):
`expiry = global_ticks + ticks` (uint64 wrap) and
`period = periodic ? ticks : 0`. -/
def timer_arm_record (g ticks : Nat) (periodic : Bool) : timer :=
  { expiry := (g + ticks) % U64, period := if periodic then ticks else 0 }

/-- Model of `timer_start` (timer.c lines 52-58): store expiry and period,
`pq_insert` the node, then `pq_reorder` (with the given fuel). -/
def timer_start (fuel : Nat) (st : TimerState) (t : Nat) (ticks : Nat) (periodic : Bool) :
    LoopRes TimerState :=
  let timers' := upd st.timers t (timer_arm_record st.global_ticks ticks periodic)
  match pq_insert (some st.timer_queue) (some t) st.mem with
  | none => .ub
  | some (_, none, _) => .ub
  | some (_, some pq', m') =>
    match pq_reorder fuel pq' (expiryEnv timers') m' with
    | .out m'' => .out { st with timer_queue := pq', mem := m'', timers := timers' }
    | .fuelOut => .fuelOut
    | .ub => .ub

/-- The drain loop of `timer_increment_tick` (timer.c lines 77-87): while the
peeked root exists and its expiry is `≤ global_ticks`, pop it, invoke its
callback (append to the log), and if its period is nonzero add the period to
its expiry (uint64 wrap) and re-insert it. -/
def drain_loop : Nat → TimerState → LoopRes TimerState
  | 0, _ => .fuelOut
  | fuel + 1, st =>
    match pq_peek st.timer_queue with
    | none => .out st
    | some r =>
      if (st.timers r).expiry ≤ st.global_ticks then
        match pq_pop st.timer_queue st.mem with
        | none => .ub
        | some (_, pq', m') =>
          let fired : TimerState :=
            { st with timer_queue := pq', mem := m', log := st.log ++ [(r, st.global_ticks)] }
          let tm := fired.timers r
          if tm.period ≠ 0 then
            let timers' := upd fired.timers r { tm with expiry := (tm.expiry + tm.period) % U64 }
            match pq_insert (some pq') (some r) m' with
            | none => .ub
            | some (_, none, _) => .ub
            | some (_, some pq'', m'') =>
              drain_loop fuel { fired with timer_queue := pq'', mem := m'', timers := timers' }
          else
            drain_loop fuel fired
      else .out st

/-- Model of `timer_increment_tick` (timer.c lines 70-90): increment
`global_ticks` (uint64 wrap), run the drain loop, then one `pq_reorder`
pass. -/
def timer_increment_tick (fuel : Nat) (st : TimerState) : LoopRes TimerState :=
  let st1 := { st with global_ticks := (st.global_ticks + 1) % U64 }
  match drain_loop fuel st1 with
  | .out st2 =>
    match pq_reorder fuel st2.timer_queue (expiryEnv st2.timers) st2.mem with
    | .out m' => .out { st2 with mem := m' }
    | .fuelOut => .fuelOut
    | .ub => .ub
  | .fuelOut => .fuelOut
  | .ub => .ub

/-- `n` consecutive calls of `timer_increment_tick`. -/
def runTicks : Nat → Nat → TimerState → LoopRes TimerState
  | 0, _, st => .out st
  | n + 1, fuel, st =>
    match timer_increment_tick fuel st with
    | .out st' => runTicks n fuel st'
    | .fuelOut => .fuelOut
    | .ub => .ub

/-- A fresh heap node with all pointers NULL. -/
def cleanNode : HeapNode := { next := none, prev := none, parent := none }

/-- State right after `timer_module_init` with zeroed node memory and timer
records (the static storage of the examples in the repository). -/
def initState : TimerState :=
  { timer_queue := initQueue
    mem := fun _ => cleanNode
    timers := fun _ => { expiry := 0, period := 0 }
    global_ticks := 0
    log := [] }

/-- Log extractor: the callback log when the run completed normally. -/
def logOf (r : LoopRes TimerState) : Option (List (Nat × Nat)) :=
  match r with
  | .out st => some st.log
  | _ => none

/-- Tick-counter extractor for completed runs. -/
def ticksOf (r : LoopRes TimerState) : Option Nat :=
  match r with
  | .out st => some st.global_ticks
  | _ => none

/-- For a completed run, the expiry of the root timer paired with the expiry
of the root node's `next` list neighbour, when both exist. -/
def rootNextExpiries (r : LoopRes TimerState) : Option (Nat × Nat) :=
  match r with
  | .out st =>
    match st.timer_queue.root with
    | some rt =>
      match (st.mem rt).next with
      | some nb => some ((st.timers rt).expiry, (st.timers nb).expiry)
      | none => none
    | none => none
  | _ => none

/-- True when a fuelled run finished normally. -/
def completed {α : Type} : LoopRes α → Bool :=
  fun r => match r with | .out _ => true | _ => false

/-- Node contents extractor for a completed `pq_reorder` pass. -/
def nodeOfRes (r : LoopRes Mem) (n : Nat) : Option HeapNode :=
  match r with
  | .out m => some (m n)
  | _ => none

/-- Claim C1 failing input: from a fresh module, timer 0 is armed one-shot
for 1000 ticks, then timer 1 is armed one-shot for 5 ticks, and
`timer_increment_tick` is called 5 times. -/
def c1_scenario : LoopRes TimerState :=
  match timer_start 2 initState 0 1000 false with
  | .out s1 =>
    match timer_start 2 s1 1 5 false with
    | .out s2 => runTicks 5 2 s2
    | .fuelOut => .fuelOut
    | .ub => .ub
  | .fuelOut => .fuelOut
  | .ub => .ub

/-- C1: a one-shot timer armed for 5 ticks at counter 0 does NOT fire during
the next 5 calls of `timer_increment_tick` when an earlier-armed timer with a
larger deadline holds the root: the run completes with the counter at 5 and
an empty callback log, while the claim demands exactly one firing of timer 1
at counter 5. -/
theorem c1_blocked_oneshot_does_not_fire :
    logOf c1_scenario = some [] ∧ ticksOf c1_scenario = some 5 := by
  decide

/-- Claim C2 failing input: from a fresh module, timer 0 is armed for 5
ticks and then timer 1 for 3 ticks; `c2_scenario` is the state right after
the re-balance pass triggered by the second `timer_start`. -/
def c2_scenario : LoopRes TimerState :=
  match timer_start 2 initState 0 5 false with
  | .out s1 => timer_start 2 s1 1 3 false
  | .fuelOut => .fuelOut
  | .ub => .ub

/-- C2: after the re-balance pass run by `timer_start` with the dispatcher's
comparator, the root timer's deadline is 5 while its immediate `next` list
neighbour's deadline is 3: the root's deadline is strictly greater, refuting
the claimed `root ≤ neighbours` (lower deadline = higher priority)
invariant. -/
theorem c2_rebalance_keeps_larger_deadline_at_root :
    rootNextExpiries c2_scenario = some (5, 3) ∧ ¬ (5 : Nat) ≤ 3 := by
  decide

/-- Claim C6 failing input: timer 0 armed one-shot for 1000 ticks, then a
periodic timer 1 with period 1, followed by 5 (= N·p with N = 5, p = 1)
calls of `timer_increment_tick`. -/
def c6_scenario : LoopRes TimerState :=
  match timer_start 2 initState 0 1000 false with
  | .out s1 =>
    match timer_start 2 s1 1 1 true with
    | .out s2 => runTicks 5 2 s2
    | .fuelOut => .fuelOut
    | .ub => .ub
  | .fuelOut => .fuelOut
  | .ub => .ub

/-- C6: the periodic timer with period 1 fires 0 times across 5 ticks (the
log is empty though the run completed, counter at 5), while the claim demands
exactly 5 firings: a timer with a larger deadline at the root starves it. -/
theorem c6_blocked_periodic_fires_zero_times :
    logOf c6_scenario = some [] ∧ ticksOf c6_scenario = some 5 := by
  decide

/-- C7: `pq_init` and `pq_insert` reject a NULL structure, comparator or node
argument with `-EINVAL`, leaving the queue and every node untouched (the
returned state is exactly the input state). -/
theorem c7_einval_leaves_state_unchanged :
    ∀ (pqArg : Option priority_queue) (cmpArg : Option Cmp) (nodeArg : Option Nat) (m : Mem),
      ((pqArg = none ∨ cmpArg = none) → pq_init pqArg cmpArg = (-EINVAL, pqArg)) ∧
      ((pqArg = none ∨ nodeArg = none) → pq_insert pqArg nodeArg m = some (-EINVAL, pqArg, m)) := by
  intro pqArg cmpArg nodeArg m
  constructor
  · rintro (rfl | rfl)
    · cases cmpArg <;> rfl
    · cases pqArg <;> rfl
  · rintro (rfl | rfl)
    · cases nodeArg <;> rfl
    · cases pqArg <;> rfl

/-- Witness for C7 at concrete NULL arguments. -/
theorem c7_witness :
    pq_init none (some timer_compare) = (-EINVAL, none) ∧
    pq_insert (some initQueue) none (fun _ => cleanNode)
      = some (-EINVAL, some initQueue, fun _ => cleanNode) :=
  ⟨(c7_einval_leaves_state_unchanged none (some timer_compare) none (fun _ => cleanNode)).1
      (Or.inl rfl),
   (c7_einval_leaves_state_unchanged (some initQueue) (some timer_compare) none
      (fun _ => cleanNode)).2 (Or.inr rfl)⟩

/-- C4: `pq_pop` follows the circular-rotation semantics of the source: an
empty queue returns an empty result and changes nothing; a singleton queue
returns the sole node and resets `head`, `tail` and `root` to NULL; a queue
with two or more nodes returns the current root, makes the prior tail the new
root, and shrinks the tail by one (the new tail is the prior tail's `prev`). -/
theorem c4_pq_pop_rotation_semantics :
    ∀ (pq : priority_queue) (m : Mem),
      (pq.head = none → pq_pop pq m = some (none, pq, m)) ∧
      (∀ n, pq.head = some n → pq.tail = some n → pq.root = some n →
        pq_pop pq m
          = some (some n, { pq with head := none, tail := none, root := none }, m)) ∧
      (∀ h t, pq.head = some h → pq.tail = some t → h ≠ t →
        ∃ m', pq_pop pq m
          = some (pq.root, { pq with root := some t, tail := (m t).prev }, m')) := by
  intro pq m
  refine ⟨?_, ?_, ?_⟩
  · intro hh
    simp [pq_pop, hh]
  · intro n hh ht hr
    simp [pq_pop, hh, ht, hr]
  · intro h t hh ht hne
    have htp : ((match (m t).prev with
        | some p => upd m p { m p with next := none }
        | none => m) t).prev = (m t).prev := by
      cases hp : (m t).prev with
      | none => exact hp
      | some p =>
        by_cases hpt : t = p
        · subst hpt; simp [upd_self, hp]
        · simp [upd_other _ _ _ hpt, hp]
    refine ⟨upd (match (m t).prev with
        | some p => upd m p { m p with next := none }
        | none => m) t
        { (match (m t).prev with
            | some p => upd m p { m p with next := none }
            | none => m) t with next := none, prev := none }, ?_⟩
    simp [pq_pop, hh, ht, hne, htp]

/-- Two-node memory: node 0 followed by node 1 (a freshly built two-element
list, as produced by `pq_insert 0; pq_insert 1`). -/
def memAB : Mem := fun n =>
  if n = 0 then { next := some 1, prev := none, parent := none }
  else if n = 1 then { next := none, prev := some 0, parent := none }
  else cleanNode

/-- Priorities for `memAB`: node 0 has expiry 1, node 1 has expiry 5. -/
def envAB : Nat → Nat := fun n => if n = 0 then 1 else 5

/-- Fresh two-node queue over `memAB`: head and root at node 0, tail at
node 1. -/
def pqAB : priority_queue :=
  { head := some 0, tail := some 1, root := some 0, compare := some timer_compare }

/-- Singleton queue at node 0. -/
def pqSingle : priority_queue :=
  { head := some 0, tail := some 0, root := some 0, compare := some timer_compare }

/-- Witness for C4 at an empty, a singleton, and a two-node queue. -/
theorem c4_witness :
    pq_pop initQueue (fun _ => cleanNode) = some (none, initQueue, fun _ => cleanNode) ∧
    pq_pop pqSingle memAB
      = some (some 0, { pqSingle with head := none, tail := none, root := none }, memAB) ∧
    ∃ m', pq_pop pqAB memAB
      = some (pqAB.root, { pqAB with root := some 1, tail := (memAB 1).prev }, m') :=
  ⟨(c4_pq_pop_rotation_semantics initQueue (fun _ => cleanNode)).1 rfl,
   (c4_pq_pop_rotation_semantics pqSingle memAB).2.1 0 rfl rfl rfl,
   (c4_pq_pop_rotation_semantics pqAB memAB).2.2 0 1 rfl rfl (by decide)⟩

/-- `timer_compare` never ranks `y` above `x` and `x` above `y` at once. -/
theorem timer_compare_antisym (env : Nat → Nat) :
    ∀ x y, 0 < timer_compare env x y → ¬ 0 < timer_compare env y x := by
  intro x y hxy hyx
  simp only [timer_compare] at hxy hyx
  split_ifs at hxy hyx <;> omega

/-- When the `largest` selection of a `pq_reorder` iteration returns
`current` itself (the loop-exit test), neither current neighbour compares
greater than `current`, for any comparator without two-sided positive
comparisons. -/
theorem reorder_pick_self (cmp : Nat → Nat → Int)
    (hA : ∀ x y, 0 < cmp x y → ¬ 0 < cmp y x) (m : Mem) (cur : Nat)
    (hl : reorder_pick cmp m cur = cur) :
    (∀ nx, (m cur).next = some nx → ¬ 0 < cmp nx cur) ∧
    (∀ pv, (m cur).prev = some pv → ¬ 0 < cmp pv cur) := by
  constructor
  · intro nx hnx hpos
    have hl2 := hl
    unfold reorder_pick at hl2
    rw [hnx] at hl2
    simp only at hl2
    rw [if_pos hpos] at hl2
    cases hpv : (m cur).prev with
    | none =>
      rw [hpv] at hl2
      simp only at hl2
      subst hl2
      exact hA _ _ hpos hpos
    | some pv =>
      rw [hpv] at hl2
      simp only at hl2
      by_cases hc : 0 < cmp pv nx
      · rw [if_pos hc] at hl2
        subst hl2
        exact hA _ _ hc hpos
      · rw [if_neg hc] at hl2
        subst hl2
        exact hA _ _ hpos hpos
  · intro pv hpv hpos
    have hl2 := hl
    unfold reorder_pick at hl2
    rw [hpv] at hl2
    cases hnext : (m cur).next with
    | none =>
      rw [hnext] at hl2
      simp only at hl2
      by_cases hc : 0 < cmp pv cur
      · rw [if_pos hc] at hl2
        subst hl2
        exact hA _ _ hpos hpos
      · exact hc hpos
    | some nx =>
      rw [hnext] at hl2
      simp only at hl2
      by_cases hnc : 0 < cmp nx cur
      · rw [if_pos hnc] at hl2
        by_cases hc : 0 < cmp pv nx
        · rw [if_pos hc] at hl2
          subst hl2
          exact hA _ _ hpos hpos
        · rw [if_neg hc] at hl2
          subst hl2
          exact hA _ _ hnc hnc
      · rw [if_neg hnc] at hl2
        by_cases hc : 0 < cmp pv cur
        · rw [if_pos hc] at hl2
          subst hl2
          exact hA _ _ hpos hpos
        · exact hc hpos

/-- When the sift loop of `pq_reorder` returns at all, the loop-exit
condition holds: in the final memory neither current neighbour of the root
compares greater than it. -/
theorem reorder_loop_out_exit (cmp : Nat → Nat → Int)
    (hA : ∀ x y, 0 < cmp x y → ¬ 0 < cmp y x) :
    ∀ (fuel : Nat) (m m' : Mem) (cur : Nat),
      pq_reorder_loop cmp fuel m cur = .out m' →
      (∀ nx, (m' cur).next = some nx → ¬ 0 < cmp nx cur) ∧
      (∀ pv, (m' cur).prev = some pv → ¬ 0 < cmp pv cur) := by
  intro fuel
  induction fuel with
  | zero =>
    intro m m' cur h
    exact absurd h (by simp [pq_reorder_loop])
  | succ f ih =>
    intro m m' cur h
    by_cases hl : reorder_pick cmp m cur = cur
    · rw [pq_reorder_loop, if_pos hl] at h
      injection h with h
      subst h
      exact reorder_pick_self cmp hA m cur hl
    · rw [pq_reorder_loop, if_neg hl] at h
      exact ih _ _ _ h

/-- C3 counterexample: on the fresh two-node list `memAB` (node 0 before
node 1, node 1 outranking node 0) the sift pass of `pq_reorder` terminates,
and node 0's `next`/`prev` linkage after the pass differs from its linkage
before it — refuting the claim that the exchange leaves both nodes' list
positions (their `next`/`prev` linkage) unchanged. -/
theorem c3_counterexample_linkage_changed :
    nodeOfRes (pq_reorder_loop (timer_compare envAB) 3 memAB 0) 0
      = some { next := none, prev := some 0, parent := none } ∧
    memAB 0 = { next := some 1, prev := none, parent := none } ∧
    nodeOfRes (pq_reorder_loop (timer_compare envAB) 3 memAB 0) 0 ≠ some (memAB 0) := by
  decide

/-- C3 (amended): the sift of `pq_reorder` starts from the root and compares
only its two current list neighbours, but when a neighbour outranks the
candidate it exchanges the two nodes' entire stored link fields (`next` and
`prev` wholesale, `parent` up to the parent fixup) — altering the linked
sequence rather than exchanging payloads in place — and when the loop
returns, neither current neighbour of the root outranks it (the loop need
not terminate at all). -/
theorem c3_reorder_swaps_links_until_no_neighbor_outranks :
    ∀ (cmp : Nat → Nat → Int) (m : Mem),
      (∀ (fuel : Nat) (m' : Mem) (cur : Nat),
        (∀ x y, 0 < cmp x y → ¬ 0 < cmp y x) →
        pq_reorder_loop cmp fuel m cur = .out m' →
        (∀ nx, (m' cur).next = some nx → ¬ 0 < cmp nx cur) ∧
        (∀ pv, (m' cur).prev = some pv → ¬ 0 < cmp pv cur)) ∧
      (∀ a b, a ≠ b →
        ((swap_nodes m a b) a).next = (m b).next ∧
        ((swap_nodes m a b) a).prev = (m b).prev ∧
        ((swap_nodes m a b) b).next = (m a).next ∧
        ((swap_nodes m a b) b).prev = (m a).prev ∧
        (∀ c, c ≠ a → c ≠ b → (swap_nodes m a b) c = m c)) := by
  intro cmp m
  constructor
  · intro fuel m' cur hA h
    exact reorder_loop_out_exit cmp hA fuel m m' cur h
  · intro a b hab
    refine ⟨?_, ?_, ?_, ?_, ?_⟩
    · simp [swap_nodes]
    · simp [swap_nodes]
    · simp [swap_nodes, Ne.symm hab]
    · simp [swap_nodes, Ne.symm hab]
    · intro c hca hcb
      simp [swap_nodes, hca, hcb]

/-- Witness for C3 on the concrete two-node list `memAB`: the terminating
pass at fuel 3 satisfies the exit condition, and `swap_nodes` exchanges the
link fields of nodes 0 and 1. -/
theorem c3_witness :
    ((∀ nx, ((swap_nodes memAB 0 1) 0).next = some nx → ¬ 0 < timer_compare envAB nx 0) ∧
     (∀ pv, ((swap_nodes memAB 0 1) 0).prev = some pv → ¬ 0 < timer_compare envAB pv 0)) ∧
    (((swap_nodes memAB 0 1) 0).next = (memAB 1).next ∧
     ((swap_nodes memAB 0 1) 0).prev = (memAB 1).prev ∧
     ((swap_nodes memAB 0 1) 1).next = (memAB 0).next ∧
     ((swap_nodes memAB 0 1) 1).prev = (memAB 0).prev ∧
     (∀ c, c ≠ 0 → c ≠ 1 → (swap_nodes memAB 0 1) c = memAB c)) :=
  ⟨(c3_reorder_swaps_links_until_no_neighbor_outranks (timer_compare envAB) memAB).1
      3 (swap_nodes memAB 0 1) 0 (timer_compare_antisym envAB) rfl,
   (c3_reorder_swaps_links_until_no_neighbor_outranks (timer_compare envAB) memAB).2
      0 1 (by decide)⟩

/-- A doubly-linked list segment: the listed nodes are chained by `next`
pointers with matching `prev` back-pointers, and the last node's `next` is
NULL (the `head .. tail` portion of the queue's sequence). -/
def isSeg (m : Mem) : List Nat → Prop
  | [] => True
  | [a] => (m a).next = none
  | a :: b :: r => (m a).next = some b ∧ (m b).prev = some a ∧ isSeg m (b :: r)

/-- In a chain ending `.. p, tl`, the last node's `prev` points at `p`. -/
theorem seg_last_prev (m : Mem) :
    ∀ (l : List Nat) (p tl : Nat), isSeg m (l ++ [p, tl]) → (m tl).prev = some p := by
  intro l
  induction l with
  | nil => intro p tl h; exact h.2.1
  | cons a l ih =>
    intro p tl h
    cases l with
    | nil => exact ih p tl h.2.2
    | cons b l2 => exact ih p tl h.2.2

/-- Dropping the last node of a chain preserves the chain when the interior
nodes are untouched and the new last node's `next` was cleared with its
`prev` preserved. -/
theorem seg_shrink (m m' : Mem) (p tl : Nat) :
    ∀ (l : List Nat), isSeg m (l ++ [p, tl]) → (∀ x ∈ l, m' x = m x) →
      (m' p).next = none → (m' p).prev = (m p).prev → isSeg m' (l ++ [p]) := by
  intro l
  induction l with
  | nil => intro _ _ hn _; exact hn
  | cons a l ih =>
    intro h hmem hn hp
    cases l with
    | nil =>
      exact ⟨by rw [hmem a (by simp)]; exact h.1, by rw [hp]; exact h.2.1, hn⟩
    | cons b l2 =>
      exact ⟨by rw [hmem a (by simp)]; exact h.1,
             by rw [hmem b (by simp)]; exact h.2.1,
             ih h.2.2 (fun x hx => hmem x (by simp [hx])) hn hp⟩

/-- Projection of a `pq_pop` call: returned node, then the head, tail and
root pointers of the queue afterwards. -/
def popView (pq : priority_queue) (m : Mem) :
    Option (Option Nat × Option Nat × Option Nat × Option Nat) :=
  match pq_pop pq m with
  | some (ret, pq2, _) => some (ret, pq2.head, pq2.tail, pq2.root)
  | none => none

/-- C5 counterexample: popping the freshly built two-node queue `pqAB`
(head = root = node 0, tail = node 1) returns node 0, yet afterwards both
`head` and `tail` still point at node 0 — the returned node is not detached,
refuting the claim for queues whose root sits inside the list. -/
theorem c5_counterexample_head_points_to_popped :
    popView pqAB memAB = some (some 0, some 0, some 0, some 1) := by
  decide

/-- C5 (amended): when the root node is *not* a member of the head-to-tail
list (the shape every queue has after a previous `pq_pop`), the node returned
by `pq_pop` is detached: `pq_pop` returns the root, the remaining sequence is
the old chain minus its tail, the returned node is not a member of it, and
none of `head`, `tail`, `root` point to the returned node afterwards. -/
theorem c5_pop_detaches_external_root :
    ∀ (pq : priority_queue) (m : Mem) (l : List Nat) (p tl r : Nat),
      isSeg m (l ++ [p, tl]) →
      pq.head = (l ++ [p, tl]).head? →
      pq.tail = some tl →
      pq.root = some r →
      r ∉ l ++ [p, tl] →
      p ∉ l → tl ∉ l → tl ≠ p →
      ∃ (pq' : priority_queue) (m' : Mem),
        pq_pop pq m = some (some r, pq', m') ∧
        pq'.head = pq.head ∧ pq'.tail = some p ∧ pq'.root = some tl ∧
        isSeg m' (l ++ [p]) ∧
        r ∉ l ++ [p] ∧
        pq'.head ≠ some r ∧ pq'.tail ≠ some r ∧ pq'.root ≠ some r := by
  intro pq m l p tl r hseg hhead htail hroot hr hpl htll htlp
  obtain ⟨h0, hh0, hh0mem⟩ : ∃ h0, pq.head = some h0 ∧ (h0 = p ∨ h0 ∈ l) := by
    cases l with
    | nil => exact ⟨p, by simpa using hhead, Or.inl rfl⟩
    | cons a l2 => exact ⟨a, by simpa using hhead, Or.inr (by simp)⟩
  have hrp : r ≠ p := by
    intro he; exact hr (by simp [he])
  have hrtl : r ≠ tl := by
    intro he; exact hr (by simp [he])
  have hrl : r ∉ l := by
    intro he; exact hr (by simp [he])
  have hh0tl : h0 ≠ tl := by
    rcases hh0mem with rfl | hmem
    · exact fun hh => htlp hh.symm
    · exact fun hh => htll (hh ▸ hmem)
  have hht : ¬ pq.head = pq.tail := by
    rw [hh0, htail]; simp [hh0tl]
  have hprev : (m tl).prev = some p := seg_last_prev m l p tl hseg
  have hm1tl : (upd m p { m p with next := none } tl).prev = some p := by
    rw [upd_other _ _ _ htlp]; exact hprev
  refine ⟨{ pq with root := some tl, tail := some p },
    upd (upd m p { m p with next := none }) tl
      { upd m p { m p with next := none } tl with next := none, prev := none }, ?_, rfl, rfl, rfl,
    ?_, ?_, ?_, ?_, ?_⟩
  · have hptl : p ≠ tl := fun he => htlp he.symm
    simp only [pq_pop, hh0, htail, hprev, hroot, hm1tl]
    simp [hh0tl]
  · have hptl : p ≠ tl := fun he => htlp he.symm
    refine seg_shrink m _ p tl l hseg ?_ ?_ ?_
    · intro x hx
      have hxp : x ≠ p := fun he => hpl (he ▸ hx)
      have hxtl : x ≠ tl := fun he => htll (he ▸ hx)
      rw [upd_other _ _ _ hxtl, upd_other _ _ _ hxp]
    · rw [upd_other _ _ _ hptl, upd_self]
    · rw [upd_other _ _ _ hptl, upd_self]
  · intro he
    rcases List.mem_append.mp he with hh | hh
    · exact hrl hh
    · exact hrp (by simpa using hh)
  · rw [hh0]
    intro hh
    have : h0 = r := by simpa using hh
    rcases hh0mem with rfl | hmem
    · exact hrp this.symm
    · exact hrl (this ▸ hmem)
  · simp [hrp.symm]
  · simp [hrtl.symm]

/-- Steady-state three-element memory for the C5 witness: node 0 is the
detached root, nodes 1 and 2 form the head-to-tail chain. -/
def mem5 : Mem := fun n =>
  if n = 0 then cleanNode
  else if n = 1 then { next := some 2, prev := none, parent := none }
  else if n = 2 then { next := none, prev := some 1, parent := none }
  else cleanNode

/-- Steady-state queue for the C5 witness: chain 1-2, detached root 0. -/
def pq5 : priority_queue :=
  { head := some 1, tail := some 2, root := some 0, compare := some timer_compare }

/-- Witness for C5 at the concrete steady-state queue `pq5`/`mem5`. -/
theorem c5_witness :
    ∃ (pq' : priority_queue) (m' : Mem),
      pq_pop pq5 mem5 = some (some 0, pq', m') ∧
      pq'.head = pq5.head ∧ pq'.tail = some 1 ∧ pq'.root = some 2 ∧
      isSeg m' ([] ++ [1]) ∧
      0 ∉ ([] : List Nat) ++ [1] ∧
      pq'.head ≠ some 0 ∧ pq'.tail ≠ some 0 ∧ pq'.root ≠ some 0 :=
  c5_pop_detaches_external_root pq5 mem5 [] 1 2 0 ⟨rfl, rfl, rfl⟩ rfl rfl rfl
    (by decide) (by decide) (by decide) (by decide)

/-- The drain loop never touches `global_ticks`: a completed drain returns a
state with the same counter. -/
theorem drain_loop_ticks_eq :
    ∀ (fuel : Nat) (st st' : TimerState), drain_loop fuel st = .out st' →
      st'.global_ticks = st.global_ticks := by
  intro fuel
  induction fuel with
  | zero =>
    intro st st' h
    cases h
  | succ f ih =>
    intro st st' h
    rw [drain_loop] at h
    split at h
    · injection h with h
      subst h
      rfl
    · split at h
      · split at h
        · cases h
        · simp only at h
          split at h
          · split at h
            · cases h
            · cases h
            · have hx := ih _ _ h
              exact hx
          · have hx := ih _ _ h
            exact hx
      · injection h with h
        subst h
        rfl

/-- C8: every completed call of `timer_increment_tick` increments the 64-bit
tick counter by exactly one modulo `2^64`, so a completed sequence of `n`
calls leaves the counter at the initial value plus `n` modulo `2^64`. -/
theorem c8_tick_counter_adds_calls_mod_u64 :
    (∀ (fuel : Nat) (st st' : TimerState), timer_increment_tick fuel st = .out st' →
        st'.global_ticks = (st.global_ticks + 1) % U64) ∧
    (∀ (n fuel : Nat) (st st' : TimerState), st.global_ticks < U64 →
        runTicks n fuel st = .out st' →
        st'.global_ticks = (st.global_ticks + n) % U64) := by
  have h1 : ∀ (fuel : Nat) (st st' : TimerState), timer_increment_tick fuel st = .out st' →
      st'.global_ticks = (st.global_ticks + 1) % U64 := by
    intro fuel st st' h
    rw [timer_increment_tick] at h
    split at h
    · rename_i st2 heq
      split at h
      · injection h with h
        subst h
        have hd := drain_loop_ticks_eq fuel _ st2 heq
        exact hd
      · cases h
      · cases h
    · cases h
    · cases h
  refine ⟨h1, ?_⟩
  intro n
  induction n with
  | zero =>
    intro fuel st st' hlt h
    injection h with h
    subst h
    simpa using (Nat.mod_eq_of_lt hlt).symm
  | succ n ih =>
    intro fuel st st' hlt h
    rw [runTicks] at h
    split at h
    · rename_i s1 heq
      have hs1 := h1 fuel st s1 heq
      have hlt1 : s1.global_ticks < U64 := by
        rw [hs1]
        exact Nat.mod_lt _ (by decide)
      have hrest := ih fuel s1 st' hlt1 h
      rw [hrest, hs1, Nat.mod_add_mod]
      congr 1
      omega
    · cases h
    · cases h

/-- Witness for C8: two completed ticks from the fresh module move the
counter from 0 to `(0 + 2) % 2^64`. -/
theorem c8_witness :
    ticksOf (runTicks 2 1 initState) = some ((initState.global_ticks + 2) % U64) := by
  have hc : completed (runTicks 2 1 initState) = true := by decide
  cases hEq : runTicks 2 1 initState with
  | out st' =>
    have h2 := c8_tick_counter_adds_calls_mod_u64.2 2 1 initState st' (by decide) hEq
    simp [ticksOf, h2]
  | fuelOut =>
    rw [hEq] at hc
    cases hc
  | ub =>
    rw [hEq] at hc
    cases hc

/-- Claim C9 failing input: the tick counter sits at `2^64 - 1` and the only
armed timer is periodic with expiry `2^63 - 1` and period `2^63`; every
re-insert wraps the expiry modulo `2^64` back under the counter
(`2^63 - 1 → 2^64 - 1 → 2^63 - 1 → ...`). -/
def wrapState : TimerState :=
  { timer_queue := { head := some 0, tail := some 0, root := some 0, compare := some timer_compare }
    mem := fun _ => cleanNode
    timers := fun _ => { expiry := 2 ^ 63 - 1, period := 2 ^ 63 }
    global_ticks := 2 ^ 64 - 1
    log := [] }

/-- Any state shaped like `wrapState` (singleton queue at node 0, period
`2^63`, expiry in the two-element wrap cycle, counter `2^64 - 1`) makes the
drain loop run out of any amount of fuel: each iteration fires the timer and
re-inserts it with the other cycle expiry, never leaving the loop. -/
theorem drain_wrap_diverges :
    ∀ (fuel : Nat) (st : TimerState),
      st.timer_queue.head = some 0 → st.timer_queue.tail = some 0 →
      st.timer_queue.root = some 0 →
      (st.timers 0).period = 2 ^ 63 →
      ((st.timers 0).expiry = 2 ^ 63 - 1 ∨ (st.timers 0).expiry = 2 ^ 64 - 1) →
      st.global_ticks = 2 ^ 64 - 1 →
      drain_loop fuel st = .fuelOut := by
  intro fuel
  induction fuel with
  | zero =>
    intro st _ _ _ _ _ _
    rfl
  | succ f ih =>
    intro st hh ht hr hp he hg
    obtain ⟨⟨qh, qt, qr, qc⟩, mem0, tms, g, L⟩ := st
    simp only at hh ht hr hp he hg
    subst hh
    subst ht
    subst hr
    subst hg
    have hc1 : (tms 0).expiry ≤ 2 ^ 64 - 1 := by
      rcases he with he | he <;> rw [he] <;> norm_num
    rw [drain_loop]
    have h63 : ((2:Nat) ^ 63 ≠ 0) = True := by norm_num
    simp only [pq_peek, pq_pop, pq_insert, if_pos hc1, hp, if_true, h63]
    refine ih _ rfl rfl rfl ?_ ?_ rfl
    · simp [upd]
    · simp [upd]
      rcases he with he | he <;> rw [he] <;> decide

/-- C9: at the wrap state the drain loop inside `timer_increment_tick` does
not terminate — for every fuel bound it is still running — because the
re-insert of the periodic timer wraps `expiry += period` modulo `2^64`
instead of strictly increasing it. -/
theorem c9_drain_loop_diverges_at_wrap :
    ∀ (fuel : Nat), drain_loop fuel wrapState = .fuelOut := fun fuel =>
  drain_wrap_diverges fuel wrapState rfl rfl rfl rfl (Or.inl rfl) rfl

/-- Timer-module state with an empty queue, `timer_compare` installed, and
the given node memory, timer records, counter and log — the state right
after `timer_module_init` (with a caller-chosen counter for generality). -/
def freshModuleState (mem0 : Mem) (timers0 : Nat → timer) (C : Nat)
    (log0 : List (Nat × Nat)) : TimerState :=
  { timer_queue := initQueue, mem := mem0, timers := timers0,
    global_ticks := C, log := log0 }

/-- C10: `timer_start(t, 0, true)` stores period `periodic ? ticks : 0 = 0`,
so the timer behaves as a one-shot despite the periodic flag: armed alone at
counter `C` it fires exactly once at the next tick and is not re-inserted
(the queue is empty afterwards), its period still 0. -/
theorem c10_zero_tick_periodic_stored_oneshot :
    ∀ (C : Nat) (mem0 : Mem) (timers0 : Nat → timer) (log0 : List (Nat × Nat)) (t : Nat),
      C + 1 < U64 →
      (timer_arm_record C 0 true).period = 0 ∧
      ∃ (st1 st2 : TimerState),
        timer_start 1 (freshModuleState mem0 timers0 C log0) t 0 true = .out st1 ∧
        (st1.timers t).period = 0 ∧
        timer_increment_tick 2 st1 = .out st2 ∧
        st2.log = log0 ++ [(t, C + 1)] ∧
        st2.timer_queue.head = none ∧ st2.timer_queue.root = none ∧
        (st2.timers t).period = 0 := by
  intro C mem0 timers0 log0 t h
  have hC : C < U64 := Nat.lt_of_succ_lt h
  have hm1 : (C + 1) % U64 = C + 1 := Nat.mod_eq_of_lt h
  have hm0 : C % U64 = C := Nat.mod_eq_of_lt hC
  refine ⟨rfl,
    ({ timer_queue := { head := some t, tail := some t, root := some t, compare := some timer_compare },
       mem := upd mem0 t cleanNode,
       timers := upd timers0 t { expiry := C % U64, period := 0 },
       global_ticks := C, log := log0 } : TimerState),
    ({ timer_queue := { head := none, tail := none, root := none, compare := some timer_compare },
       mem := upd mem0 t cleanNode,
       timers := upd timers0 t { expiry := C % U64, period := 0 },
       global_ticks := (C + 1) % U64, log := log0 ++ [(t, (C + 1) % U64)] } : TimerState),
    ?_, ?_, ?_, ?_, rfl, rfl, ?_⟩
  · rw [timer_start]
    simp only [freshModuleState, initQueue, timer_arm_record, pq_insert, pq_reorder,
      pq_reorder_loop, reorder_pick, expiryEnv, timer_compare]
    simp [upd, cleanNode]
  · simp [upd]
  · rw [timer_increment_tick]
    simp only [drain_loop, pq_peek, pq_pop, pq_reorder]
    simp [upd, hm0, hm1]
  · simp [hm1]
  · simp [upd]

/-- Witness for C10: timer 0 armed with `ticks = 0, periodic = true` at
counter 0 in a fresh module. -/
theorem c10_witness :
    (timer_arm_record 0 0 true).period = 0 ∧
    ∃ (st1 st2 : TimerState),
      timer_start 1
          (freshModuleState (fun _ => cleanNode) (fun _ => { expiry := 0, period := 0 }) 0 [])
          0 0 true = .out st1 ∧
      (st1.timers 0).period = 0 ∧
      timer_increment_tick 2 st1 = .out st2 ∧
      st2.log = [] ++ [(0, 0 + 1)] ∧
      st2.timer_queue.head = none ∧ st2.timer_queue.root = none ∧
      (st2.timers 0).period = 0 :=
  c10_zero_tick_periodic_stored_oneshot 0 (fun _ => cleanNode)
    (fun _ => { expiry := 0, period := 0 }) [] 0 (by decide)
